import Mathlib

/-!
Verification of the streaming assembly pipeline of `src/health_app.py`
(GLP1Bot).  Strings are embedded as `List Char`; each definition mirrors
one Python function or loop of the source file.
-/

set_option maxRecDepth 4000

/-- Strings of the embedded program, as lists of characters. -/
abbrev Str := List Char

/-- Python `str` whitespace (ASCII part), as used by `str.strip()` and `\s`. -/
def isPySpace (c : Char) : Bool :=
  c = ' ' || c = '\t' || c = '\n' || c = '\r' || c = '\x0b' || c = '\x0c'

/-- Python `s.strip()`: remove leading and trailing whitespace. -/
def pyStrip (s : Str) : Str :=
  ((s.dropWhile isPySpace).reverse.dropWhile isPySpace).reverse

/-- `startsWith s p` : the pattern `p` is a prefix of `s`. -/
def startsWith : Str → Str → Bool
  | _, [] => true
  | [], _ :: _ => false
  | c :: cs, p :: ps => c == p && startsWith cs ps

/-- `occursIn p s` : Python `p in s` (substring containment). -/
def occursIn (p : Str) : Str → Bool
  | [] => startsWith [] p
  | c :: cs => startsWith (c :: cs) p || occursIn p cs

/-- Split `s` at the first occurrence of `p`: Python `s.split(p, 1)` when the
separator occurs, returning the text before and after the first occurrence. -/
def splitFirst (p : Str) : Str → Option (Str × Str)
  | [] => if startsWith [] p then some ([], []) else none
  | c :: cs =>
    if startsWith (c :: cs) p then some ([], List.drop p.length (c :: cs))
    else
      match splitFirst p cs with
      | some (b, a) => some (c :: b, a)
      | none => none

theorem startsWith_iff (s p : Str) : startsWith s p = true ↔ ∃ t, s = p ++ t := by
  induction p generalizing s with
  | nil => simp [startsWith]
  | cons x xs ih =>
    cases s with
    | nil => simp [startsWith]
    | cons c cs =>
      simp only [startsWith, Bool.and_eq_true, beq_iff_eq, ih, List.cons_append,
        List.cons.injEq]
      constructor
      · rintro ⟨rfl, t, rfl⟩; exact ⟨t, rfl, rfl⟩
      · rintro ⟨t, rfl, rfl⟩; exact ⟨rfl, t, rfl⟩

theorem splitFirst_append (p s b a : Str) (h : splitFirst p s = some (b, a)) :
    s = b ++ p ++ a := by
  induction s generalizing b a with
  | nil =>
    by_cases hs : startsWith [] p = true
    · rcases (startsWith_iff [] p).1 hs with ⟨t, ht⟩
      rcases List.append_eq_nil.1 ht.symm with ⟨rfl, rfl⟩
      simp [splitFirst, startsWith] at h
      rcases h with ⟨rfl, rfl⟩
      rfl
    · simp [splitFirst, hs] at h
  | cons c cs ih =>
    by_cases hs : startsWith (c :: cs) p = true
    · simp [splitFirst, hs] at h
      rcases (startsWith_iff _ p).1 hs with ⟨t, ht⟩
      rcases h with ⟨rfl, rfl⟩
      conv in (List.drop _ _) => rw [ht]
      conv_lhs => rw [ht]
      simp
    · rcases hsp : splitFirst p cs with _ | ⟨b', a'⟩ <;>
        simp [splitFirst, hs, hsp] at h
      rcases h with ⟨rfl, rfl⟩
      simp [ih _ _ hsp]

theorem occursIn_eq_isSome (p : Str) (s : Str) :
    occursIn p s = (splitFirst p s).isSome := by
  induction s with
  | nil =>
    by_cases hs : startsWith [] p = true <;> simp [occursIn, splitFirst, hs]
  | cons c cs ih =>
    by_cases hs : startsWith (c :: cs) p = true
    · simp [occursIn, splitFirst, hs]
    · simp only [occursIn, splitFirst, hs, Bool.false_or, if_neg]
      rw [ih]
      cases splitFirst p cs with
      | none => simp
      | some ba => cases ba; simp

theorem splitFirst_before (p s b a : Str) (hp : p ≠ [])
    (h : splitFirst p s = some (b, a)) : occursIn p b = false := by
  induction s generalizing b a with
  | nil =>
    by_cases hs : startsWith [] p = true
    · rcases (startsWith_iff [] p).1 hs with ⟨t, ht⟩
      rcases List.append_eq_nil.1 ht.symm with ⟨rfl, rfl⟩
      exact absurd rfl hp
    · simp [splitFirst, hs] at h
  | cons c cs ih =>
    by_cases hs : startsWith (c :: cs) p = true
    · simp [splitFirst, hs] at h
      rcases h with ⟨rfl, rfl⟩
      cases p with
      | nil => exact absurd rfl hp
      | cons x xs => simp [occursIn, startsWith]
    · rcases hsp : splitFirst p cs with _ | ⟨b', a'⟩ <;>
        simp [splitFirst, hs, hsp] at h
      rcases h with ⟨rfl, rfl⟩
      have htail := ih _ _ hsp
      have hhead : startsWith (c :: b') p = false := by
        by_contra hcontra
        rw [Bool.not_eq_false] at hcontra
        rcases (startsWith_iff _ p).1 hcontra with ⟨t, ht⟩
        have : startsWith (c :: cs) p = true := by
          rw [startsWith_iff]
          refine ⟨t ++ p ++ a', ?_⟩
          have hcs : cs = b' ++ p ++ a' := splitFirst_append p _ _ _ hsp
          rw [hcs, ← List.cons_append, ← List.cons_append, ht]
          simp
        exact hs this
      simp [occursIn, hhead, htail]

/-- The `"Sources:"` marker scanned for in `stream_pplx_response` (line 194). -/
def sourcesMarker : Str := "Sources:".data

/-- The mutable loop state of `stream_pplx_response`:
`accumulated_content`, `sources_text`, `found_sources`. -/
structure SplitState where
  acc : Str
  src : Str
  found : Bool
deriving DecidableEq

/-- One iteration of the fragment-routing logic of `stream_pplx_response`
(lines 193-205): the `if "Sources:" in content / elif found_sources / else`
chain.  The inner `none` branch mirrors the dead `else` of
`if len(parts) > 1` (a split on a contained separator always has 2 parts). -/
def sectionStep (st : SplitState) (content : Str) : SplitState :=
  if occursIn sourcesMarker content then
    match splitFirst sourcesMarker content with
    | some (b, a) => ⟨st.acc ++ b, st.src ++ a, true⟩
    | none => ⟨st.acc ++ content, st.src, true⟩
  else if st.found then ⟨st.acc, st.src ++ content, st.found⟩
  else ⟨st.acc ++ content, st.src, st.found⟩

/-- Routing a whole sequence of streamed content fragments, starting from the
initial state of `stream_pplx_response` (lines 174-176). -/
def runSplit (frags : List Str) : SplitState :=
  frags.foldl sectionStep ⟨[], [], false⟩

/-- C1 counterexample: after the `"Sources:"` marker has been detected
(first fragment), a later fragment that itself contains `"Sources:"` has its
pre-marker text `"b "` appended to `accumulated_content`, so the answer
buffer does gain text from a fragment processed after detection. -/
theorem C1_counterexample :
    (runSplit ["Sources: a".data]).found = true ∧
    (runSplit ["Sources: a".data, "b Sources: c".data]).acc ≠
      (runSplit ["Sources: a".data]).acc := by
  decide

/-- C1 amended: after the marker has been detected, a fragment that does not
contain `"Sources:"` is routed wholly to the sources buffer and the answer
buffer is unchanged; but a fragment that contains `"Sources:"` again has the
text before the marker appended to the answer buffer and the text after it
appended to the sources buffer. -/
theorem C1_amended (st : SplitState) (c : Str) (hf : st.found = true) :
    (occursIn sourcesMarker c = false →
      sectionStep st c = ⟨st.acc, st.src ++ c, true⟩) ∧
    (∀ b a, splitFirst sourcesMarker c = some (b, a) →
      sectionStep st c = ⟨st.acc ++ b, st.src ++ a, true⟩) := by
  constructor
  · intro hm
    unfold sectionStep
    rw [hm, hf]
    simp [hf]
  · intro b a hsp
    have hm : occursIn sourcesMarker c = true := by
      rw [occursIn_eq_isSome, hsp]
      rfl
    unfold sectionStep
    rw [hm, hsp]
    simp

/-- Witness for `C1_amended` at concrete inputs. -/
theorem C1_amended_witness :
    sectionStep ⟨"x".data, "y".data, true⟩ " more".data =
      ⟨"x".data, "y more".data, true⟩ ∧
    sectionStep ⟨"x".data, "y".data, true⟩ "b Sources: c".data =
      ⟨"xb ".data, "y c".data, true⟩ :=
  ⟨(C1_amended ⟨"x".data, "y".data, true⟩ " more".data rfl).1 (by decide),
   (C1_amended ⟨"x".data, "y".data, true⟩ "b Sources: c".data rfl).2
     "b ".data " c".data (by decide)⟩

/-- C4 counterexample: a fragment containing the marker `"Citations: "` is not
treated as a section marker at all; its entire text (including the text after
the supposed marker) is appended to the answer buffer, where the claim says
the answer buffer would gain only the (empty) pre-marker text. -/
theorem C4_counterexample :
    (sectionStep ⟨[], [], false⟩ "Citations: x".data).acc ≠ [] ∧
    sectionStep ⟨[], [], false⟩ "Citations: x".data =
      ⟨"Citations: x".data, [], false⟩ := by
  decide

/-- C4 amended: the splitter recognizes only the single case-sensitive marker
`"Sources:"`.  A fragment without that marker is routed whole to whichever
buffer is active; a fragment containing it is split at its first occurrence,
the pre-marker text is appended to the answer buffer (regardless of the
previously active buffer), the post-marker text to the sources buffer, which
becomes active.  `"Citations:"`, `"Related Questions:"` and
`"Follow-up Questions:"` are not markers. -/
theorem C4_amended (st : SplitState) (c : Str) :
    (occursIn sourcesMarker c = false →
      sectionStep st c =
        if st.found then ⟨st.acc, st.src ++ c, st.found⟩
        else ⟨st.acc ++ c, st.src, st.found⟩) ∧
    (occursIn sourcesMarker c = true →
      ∃ b a, c = b ++ sourcesMarker ++ a ∧ occursIn sourcesMarker b = false ∧
        sectionStep st c = ⟨st.acc ++ b, st.src ++ a, true⟩) := by
  constructor
  · intro hm
    unfold sectionStep
    rw [hm]
    simp
  · intro hm
    rw [occursIn_eq_isSome] at hm
    rcases hsp : splitFirst sourcesMarker c with _ | ⟨b, a⟩
    · rw [hsp] at hm
      simp at hm
    · refine ⟨b, a, splitFirst_append _ _ _ _ hsp,
        splitFirst_before _ _ _ _ (by decide) hsp, ?_⟩
      unfold sectionStep
      rw [occursIn_eq_isSome, hsp]
      simp

/-- Witness for `C4_amended` at concrete inputs. -/
theorem C4_amended_witness :
    sectionStep ⟨"q".data, [], false⟩ "Related Questions: z".data =
      ⟨"qRelated Questions: z".data, [], false⟩ ∧
    ∃ b a, ("pre Sources: post".data : Str) = b ++ sourcesMarker ++ a ∧
      occursIn sourcesMarker b = false ∧
      sectionStep ⟨"q".data, [], false⟩ "pre Sources: post".data =
        ⟨("q".data ++ b), a, true⟩ :=
  ⟨by
    have h := (C4_amended ⟨"q".data, [], false⟩ "Related Questions: z".data).1
      (by decide)
    simpa using h,
   (C4_amended ⟨"q".data, [], false⟩ "pre Sources: post".data).2 (by decide)⟩

/-- Python `str.lower()` restricted to ASCII letters (the keyword table and
all relevant inputs are ASCII). -/
def pyLower (s : Str) : Str :=
  s.map fun c => if 'A' ≤ c && c ≤ 'Z' then Char.ofNat (c.toNat + 32) else c

/-- Python `str.upper()` restricted to ASCII letters. -/
def pyUpper (s : Str) : Str :=
  s.map fun c => if 'a' ≤ c && c ≤ 'z' then Char.ofNat (c.toNat - 32) else c

/-- The fixed, ordered category table of `categorize_query` (lines 324-332);
Python dict literals iterate in insertion order. -/
def categoriesTable : List (Str × List Str) := [
  ("dosage".data, ["dose".data, "dosage".data, "how to take".data,
    "when to take".data, "injection".data, "administration".data]),
  ("side_effects".data, ["side effect".data, "adverse".data, "reaction".data,
    "problem".data, "issues".data, "symptoms".data]),
  ("benefits".data, ["benefit".data, "advantage".data, "help".data,
    "work".data, "effect".data, "weight".data, "glucose".data]),
  ("storage".data, ["store".data, "storage".data, "keep".data,
    "refrigerate".data, "temperature".data]),
  ("lifestyle".data, ["diet".data, "exercise".data, "lifestyle".data,
    "food".data, "alcohol".data, "eating".data]),
  ("interactions".data, ["interaction".data, "drug".data, "medication".data,
    "combine".data, "mixing".data]),
  ("cost".data, ["cost".data, "price".data, "insurance".data,
    "coverage".data, "afford".data])]

/-- `any(keyword in query_lower for keyword in keywords)` for one table entry. -/
def entryHit (ql : Str) (e : Str × List Str) : Bool :=
  e.2.any fun k => occursIn k ql

/-- The `for category, keywords in categories.items()` loop of
`categorize_query` (lines 335-338). -/
def categorizeGo (ql : Str) : List (Str × List Str) → Str
  | [] => "general".data
  | e :: rest => if entryHit ql e then e.1 else categorizeGo ql rest

/-- `categorize_query` (lines 322-338): lowercase the query and return the
first table category with a keyword substring hit, else `"general"`. -/
def categorize_query (q : Str) : Str :=
  categorizeGo (pyLower q) categoriesTable

/-- The closed set of possible results of `categorize_query`. -/
def allCategories : List Str :=
  ["dosage".data, "side_effects".data, "benefits".data, "storage".data,
   "lifestyle".data, "interactions".data, "cost".data, "general".data]

theorem categorizeGo_eq_find (ql : Str) (t : List (Str × List Str)) :
    categorizeGo ql t =
      (match t.find? (entryHit ql) with
       | some e => e.1
       | none => "general".data) := by
  induction t with
  | nil => rfl
  | cons e rest ih =>
    by_cases he : entryHit ql e = true <;>
      simp [categorizeGo, List.find?, he, ih]

theorem categorizeGo_mem (ql : Str) (t : List (Str × List Str)) :
    categorizeGo ql t ∈ t.map Prod.fst ++ ["general".data] := by
  induction t with
  | nil => simp [categorizeGo]
  | cons e rest ih =>
    by_cases he : entryHit ql e = true <;> simp [categorizeGo, he]
    · right
      simpa using ih

/-- C9: for every query string, `categorize_query` lowercases the query,
returns the first table category (in the fixed insertion order) whose keyword
list has a substring hit, and `"general"` otherwise; in particular the result
always lies in the fixed closed category set and the earliest matching table
entry wins (first-match semantics of `List.find?`). -/
theorem C9_categorize (q : Str) :
    categorize_query q ∈ allCategories ∧
    categorize_query q =
      (match categoriesTable.find? (entryHit (pyLower q)) with
       | some e => e.1
       | none => "general".data) := by
  refine ⟨?_, categorizeGo_eq_find _ _⟩
  have h := categorizeGo_mem (pyLower q) categoriesTable
  simpa [categorize_query, categoriesTable, allCategories] using h

/-- One item yielded by the generator `stream_pplx_response`: the dicts with
`"type"` equal to `"content"`, `"complete"` or `"error"` (lines 207-228). -/
inductive Item where
  | content (data accum : Str)
  | complete (content sources : Str)
  | error (msg : Str)
deriving DecidableEq

/-- The fixed disclaimer string of `process_streaming_query` (line 262). -/
def disclaimerStr : Str :=
  ("\n\nDisclaimer: Always consult your healthcare provider before making " ++
   "any changes to your medication or treatment plan.").data

/-- The validation-error message of `process_streaming_query` (line 236). -/
def validationMsg : Str := "Please enter a valid question.".data

def composeTpl1 : Str := "\n                    <div class=\"chat-message bot-message\">\n                        <div class=\"category-tag\">".data

def composeTpl2 : Str := "</div><br>\n                        <b>Response:</b><br>".data

def composeTpl3 : Str := "\n                        <div class=\"sources-section\">\n                            <b>Sources:</b><br>".data

def composeTpl4 : Str := "\n                        </div>\n                        <div class=\"disclaimer\">".data

def composeTpl5 : Str := "</div>\n                    </div>\n                    ".data

/-- The `formatted_response` f-string of the `"complete"` branch of
`process_streaming_query` (lines 264-273): category tag, body, sources
section and the fixed disclaimer, interpolated into one template. -/
def compose_formatted_response (query_category full_response sources : Str) : Str :=
  composeTpl1 ++ pyUpper query_category ++ composeTpl2 ++ full_response ++
    composeTpl3 ++ sources ++ composeTpl4 ++ disclaimerStr ++ composeTpl5

/-- The success dictionary returned by `process_streaming_query`
(lines 307-314). -/
structure SuccessDoc where
  query_category : Str
  original_query : Str
  response : Str
  sources : Str
  disclaimerText : Str
deriving DecidableEq

/-- Result of `process_streaming_query`: the `"status": "success"` dict or an
`"status": "error"` dict with a message. -/
inductive ProcResult where
  | success (doc : SuccessDoc)
  | error (msg : Str)
deriving DecidableEq

/-- The `for chunk in self.stream_pplx_response(...)` loop of
`process_streaming_query` (lines 245-305), folded over the generator's items:
error items return immediately; content items update `full_response`;
a complete item sets `full_response`, `sources` and binds `disclaimer`.
Reaching the end with `disclaimer` never bound is Python's `NameError` at the
return statement, caught by the outer `except` (lines 316-321). -/
def processItems (cat q : Str) : List Item → Str → Str → Option Str → ProcResult
  | [], full, src, some d => .success ⟨cat, q, full, src, d⟩
  | [], _, _, none =>
    .error "Error processing query: name 'disclaimer' is not defined".data
  | .error m :: _, _, _, _ => .error m
  | .content _ a :: rest, _, src, d => processItems cat q rest a src d
  | .complete c s :: rest, _, _, _ =>
    processItems cat q rest c s (some disclaimerStr)

/-- `process_streaming_query` (lines 230-321).  The generator's output is
passed in as `items`; the second component of the result records whether
`stream_pplx_response` — the network call — was invoked at all, which the
empty-query guard of lines 233-237 short-circuits. -/
def process_streaming_query (user_query : Str) (items : List Item) :
    ProcResult × Bool :=
  if pyStrip user_query = [] then (.error validationMsg, false)
  else (processItems (categorize_query user_query) user_query items [] [] none,
    true)

/-- C6: a query that is empty after stripping whitespace yields the
validation-error result with the user-visible message
`"Please enter a valid question."`, and the streaming network call is never
made, whatever the network would have answered. -/
theorem C6_empty_query (q : Str) (items : List Item) (h : pyStrip q = []) :
    process_streaming_query q items = (.error validationMsg, false) := by
  unfold process_streaming_query
  rw [if_pos h]

/-- Witness for `C6_empty_query` on a whitespace-only query. -/
theorem C6_empty_query_witness :
    process_streaming_query "  \t\n ".data
      [Item.content "x".data "x".data] = (.error validationMsg, false) :=
  C6_empty_query "  \t\n ".data [Item.content "x".data "x".data] (by decide)

theorem occursIn_append_right (p b : Str) (a : Str)
    (h : occursIn p b = true) : occursIn p (a ++ b) = true := by
  induction a with
  | nil => simpa using h
  | cons c cs ih => simp [occursIn, ih]

theorem occursIn_self_append (p t : Str) : occursIn p (p ++ t) = true := by
  cases p with
  | nil => cases t <;> simp [occursIn, startsWith]
  | cons c cs =>
    have hs : startsWith (c :: cs ++ t) (c :: cs) = true :=
      (startsWith_iff _ _).2 ⟨t, by simp⟩
    show (startsWith (c :: cs ++ t) (c :: cs) || occursIn (c :: cs) (cs ++ t)) = true
    rw [hs, Bool.true_or]

/-- C5 counterexample: a raw body that already contains the word
"disclaimer" (case-insensitively) still has the fixed disclaimer string
interpolated into the composed response — the composer performs no check. -/
theorem C5_counterexample :
    occursIn "disclaimer".data
      (pyLower "A disclaimer is already here.".data) = true ∧
    occursIn disclaimerStr
      (compose_formatted_response "general".data
        "A disclaimer is already here.".data "src".data) = true := by
  constructor
  · decide
  · unfold compose_formatted_response
    simp only [List.append_assoc]
    apply occursIn_append_right
    apply occursIn_append_right
    apply occursIn_append_right
    apply occursIn_append_right
    apply occursIn_append_right
    apply occursIn_append_right
    apply occursIn_append_right
    exact occursIn_self_append _ _

/-- C5 amended: the composer appends the fixed disclaimer string exactly once
and unconditionally — the surrounding template does not depend on the body,
so a body that already contains a disclaimer is composed identically and
still receives the appended disclaimer. -/
theorem C5_amended (cat src : Str) :
    ∃ pre post : Str,
      (∀ body, compose_formatted_response cat body src = pre ++ body ++ post) ∧
      occursIn disclaimerStr post = true := by
  refine ⟨composeTpl1 ++ pyUpper cat ++ composeTpl2,
    composeTpl3 ++ (src ++ (composeTpl4 ++ disclaimerStr ++ composeTpl5)),
    fun body => ?_, ?_⟩
  · unfold compose_formatted_response
    simp
  · apply occursIn_append_right
    apply occursIn_append_right
    simp only [List.append_assoc]
    exact occursIn_self_append _ _

def skipWs (s : Str) : Str := s.dropWhile isPySpace

/-- One JSON string literal (no escape sequences; a backslash aborts the
parse), returning content and remainder. -/
def parseJsonStringLit : Str → Option (Str × Str)
  | '"' :: rest =>
    match rest.dropWhile (fun c => c != '"' && c != '\\') with
    | '"' :: tl => some (rest.takeWhile (fun c => c != '"' && c != '\\'), tl)
    | _ => none
  | _ => none

def parseJsonArrayElems : Nat → Str → List Str → Option (List Str)
  | 0, _, _ => none
  | fuel + 1, s, acc =>
    match parseJsonStringLit (skipWs s) with
    | none => none
    | some (x, rest) =>
      match skipWs rest with
      | ',' :: tl => parseJsonArrayElems fuel tl (acc ++ [x])
      | ']' :: tl => if skipWs tl = [] then some (acc ++ [x]) else none
      | _ => none

/-- The `json.loads(questions_str)` call of line 127, restricted to the
JSON-array-of-strings shape that the surrounding code consumes.  Any other
input returns `none`, which models `json.JSONDecodeError` and routes to the
regex/line-splitting fallback of lines 129-134; this is faithful for all
non-JSON inputs such as the numbered-line text of the claim. -/
def jsonArrayOfStrings (s : Str) : Option (List Str) :=
  match skipWs s with
  | '[' :: tl =>
    match skipWs tl with
    | ']' :: tl2 => if skipWs tl2 = [] then some [] else none
    | _ => parseJsonArrayElems (s.length + 1) tl []
  | _ => none

/-- `re.findall(r'"([^"]+)\?"', questions_str)` (line 130): captured contents
of quoted spans that end in a question mark, question mark excluded from the
capture by the pattern, scanning left to right without overlap. -/
def findallQuotedF : Nat → Str → List Str
  | 0, _ => []
  | _ + 1, [] => []
  | fuel + 1, c :: rest =>
    if c = '"' then
      match rest.dropWhile (· != '"') with
      | '"' :: tl =>
        let r := rest.takeWhile (· != '"')
        if 2 ≤ r.length ∧ r.getLast? = some '?' then
          r.dropLast :: findallQuotedF fuel tl
        else findallQuotedF fuel rest
      | _ => findallQuotedF fuel rest
    else findallQuotedF fuel rest

def findallQuoted (s : Str) : List Str := findallQuotedF (s.length + 1) s

/-- Python `s.split(sep)` for a one-character separator (keeps empty parts). -/
def pySplitChar (sep : Char) : Str → List Str
  | [] => [[]]
  | c :: rest =>
    if c = sep then [] :: pySplitChar sep rest
    else
      match pySplitChar sep rest with
      | l :: ls => (c :: l) :: ls
      | [] => [[c]]

/-- Python `s.strip(chars)`: remove any of the given characters from both
ends. -/
def pyStripSet (cs : List Char) (s : Str) : Str :=
  ((s.dropWhile (cs.contains ·)).reverse.dropWhile (cs.contains ·)).reverse

/-- Python `s.endswith(c)` for a single character. -/
def pyEndsWith (s : Str) (c : Char) : Bool := s.getLast? == some c

/-- The fallback extraction of lines 129-134: the quoted-question regex
first; if it finds nothing, split on newlines, keep lines containing `'?'`
whose stripped length exceeds 10, and strip whitespace and `[]"` from the
edges of each kept line. -/
def fallbackQuestions (questions_str : Str) : List Str :=
  let byRegex := findallQuoted questions_str
  if byRegex.isEmpty then
    (pySplitChar '\n' questions_str).filterMap fun q =>
      if occursIn "?".data q = true ∧ 10 < (pyStrip q).length then
        some (pyStripSet ['[', ']', '"'] (pyStrip q))
      else none
  else byRegex

/-- The validation loop of lines 137-143: strip each candidate, keep the
nonempty ones ending in `'?'` of length above 10, and cap at 4. -/
def validateQuestions (qs : List Str) : List Str :=
  (qs.filterMap fun q =>
    let q' := pyStrip q
    if q' ≠ [] ∧ pyEndsWith q' '?' = true ∧ 10 < q'.length then some q'
    else none).take 4

/-- The follow-up question extraction of `generate_followup_questions`
(lines 123-143) applied to the text returned by the service: the defensive
chain JSON parse / quoted-regex / line-splitting, then validation. -/
def extract_questions (questions_str : Str) : List Str :=
  match jsonArrayOfStrings questions_str with
  | some qs => validateQuestions qs
  | none => validateQuestions (fallbackQuestions questions_str)

theorem validateQuestions_length (qs : List Str) :
    (validateQuestions qs).length ≤ 4 := by
  unfold validateQuestions
  exact List.length_take_le _ _

theorem validateQuestions_mem (qs : List Str) (q : Str)
    (h : q ∈ validateQuestions qs) :
    pyEndsWith q '?' = true ∧ 10 < q.length := by
  unfold validateQuestions at h
  have h' := List.mem_of_mem_take h
  rcases List.mem_filterMap.1 h' with ⟨a, _, hfa⟩
  simp only at hfa
  split at hfa
  · rename_i hcond
    cases hfa
    exact ⟨hcond.2.1, hcond.2.2⟩
  · cases hfa

/-- The numbered-line input of the claim. -/
def c3Input : Str :=
  "1. Ignore unwanted topics?\n2. How should I store Ozempic?\n3. x".data

/-- C3 counterexample: on the claim's input the extractor does not return the
question texts with the `<integer>. ` prefixes removed — the code never
parses the prefixes away (`strip('[]\x22')` touches only brackets and
quotes at the edges). -/
theorem C3_counterexample :
    extract_questions c3Input ≠
      ["Ignore unwanted topics?".data, "How should I store Ozempic?".data] := by
  decide

/-- C3 amended: the extractor keeps the numbered lines whole (prefix
retained), trimmed, keeping only entries that end with `'?'` and are longer
than 10 characters, capped at 4 in original order; on the claim's input it
returns exactly the two prefixed questions. -/
theorem C3_amended :
    extract_questions c3Input =
      ["1. Ignore unwanted topics?".data,
       "2. How should I store Ozempic?".data] ∧
    (∀ s, (extract_questions s).length ≤ 4) ∧
    (∀ s q, q ∈ extract_questions s →
      pyEndsWith q '?' = true ∧ 10 < q.length) := by
  refine ⟨by decide, fun s => ?_, fun s q h => ?_⟩
  · unfold extract_questions
    rcases jsonArrayOfStrings s with _ | qs
    · exact validateQuestions_length _
    · exact validateQuestions_length _
  · unfold extract_questions at h
    rcases hj : jsonArrayOfStrings s with _ | qs <;> rw [hj] at h
    · exact validateQuestions_mem _ _ h
    · exact validateQuestions_mem _ _ h

/-- Witness for `C3_amended` at a concrete extracted question. -/
theorem C3_amended_witness :
    pyEndsWith "1. Ignore unwanted topics?".data '?' = true ∧
      10 < ("1. Ignore unwanted topics?".data : Str).length :=
  C3_amended.2.2 c3Input "1. Ignore unwanted topics?".data (by decide)

/-- The URL character class `[^\s<>"]` of the pattern on line 63. -/
def isUrlChar (c : Char) : Bool :=
  !(isPySpace c) && c != '<' && c != '>' && c != '"'

/-- The title character class `[^.!?\n]` of the pattern on line 73. -/
def isTitleChar (c : Char) : Bool :=
  c != '.' && c != '!' && c != '?' && c != '\n'

/-- `re.sub(r'<[^>]+>', '', s)` (line 60): delete every span from a `<` to
the next `>` with at least one character between; a `<` with no such closing
`>` is kept.  Fuel bounds the recursion by the input length. -/
def cleanHtmlF : Nat → Str → Str
  | 0, s => s
  | _ + 1, [] => []
  | fuel + 1, c :: rest =>
    if c = '<' then
      match rest.dropWhile (· != '>') with
      | '>' :: tl =>
        if rest.takeWhile (· != '>') = [] then c :: cleanHtmlF fuel rest
        else cleanHtmlF fuel tl
      | _ => c :: cleanHtmlF fuel rest
    else c :: cleanHtmlF fuel rest

def cleanHtml (s : Str) : Str := cleanHtmlF (s.length + 1) s

/-- One attempt of the URL pattern `https?://[^\s<>"]+|www\.[^\s<>"]+`
(line 63) at the current position: the protocol literal, then a nonempty
greedy run of URL characters; returns the match and the remainder. -/
def matchUrlAt (s : Str) : Option (Str × Str) :=
  if startsWith s "https://".data then
    let tail := s.drop 8
    let run := tail.takeWhile isUrlChar
    if run = [] then none
    else some ("https://".data ++ run, tail.drop run.length)
  else if startsWith s "http://".data then
    let tail := s.drop 7
    let run := tail.takeWhile isUrlChar
    if run = [] then none
    else some ("http://".data ++ run, tail.drop run.length)
  else if startsWith s "www.".data then
    let tail := s.drop 4
    let run := tail.takeWhile isUrlChar
    if run = [] then none
    else some ("www.".data ++ run, tail.drop run.length)
  else none

/-- `re.finditer` of the URL pattern (line 66): left-to-right,
non-overlapping, scanning one character forward after a failed position. -/
def findUrlsF : Nat → Str → List Str
  | 0, _ => []
  | _ + 1, [] => []
  | fuel + 1, c :: rest =>
    match matchUrlAt (c :: rest) with
    | some (m, rest') => m :: findUrlsF fuel rest'
    | none => findUrlsF fuel rest

def findUrls (s : Str) : List Str := findUrlsF (s.length + 1) s

/-- Greedy backtracking of the group `([^.!?\n]+)` before the lookahead
`(?=\s*url)`: the largest `k ≤ maxRun` such that after `k` title characters
and any following whitespace the literal `url` follows. -/
def bestK (url s : Str) : Nat → Option Nat
  | 0 => none
  | k + 1 =>
    if startsWith ((s.drop (k + 1)).dropWhile isPySpace) url then some (k + 1)
    else bestK url s k

/-- The group matched at one position, if the pattern matches there. -/
def titleMatchAt (url s : Str) : Option Str :=
  match bestK url s (s.takeWhile isTitleChar).length with
  | some k => some (s.take k)
  | none => none

/-- `re.search(rf'([^.!?\n]+)(?=\s*{re.escape(url)})', s)` (line 73):
the group of the leftmost position at which the pattern matches. -/
def searchTitleF (url : Str) : Nat → Str → Option Str
  | 0, _ => none
  | _ + 1, [] => none
  | fuel + 1, c :: rest =>
    match titleMatchAt url (c :: rest) with
    | some g => some g
    | none => searchTitleF url fuel rest

def searchTitle (url s : Str) : Option Str := searchTitleF url (s.length + 1) s

/-- Python `s.replace(old, new)`: all non-overlapping occurrences, left to
right.  (The source never calls it with an empty `old`; that case is the
identity here.) -/
def pyReplaceAllF (old new : Str) : Nat → Str → Str
  | 0, s => s
  | _ + 1, [] => []
  | fuel + 1, c :: rest =>
    if startsWith (c :: rest) old then
      new ++ pyReplaceAllF old new fuel ((c :: rest).drop old.length)
    else c :: pyReplaceAllF old new fuel rest

def pyReplaceAll (s old new : Str) : Str :=
  if old = [] then s else pyReplaceAllF old new (s.length + 1) s

/-- The body of the `for url_match in urls` loop of
`format_sources_as_hyperlinks` (lines 70-82): infer a title for the URL; if
one is found, replace `"<group> <url>"` (group text, one space, URL) by the
markdown hyperlink, else replace the URL itself. -/
def formatStep (ft : Str) (url : Str) : Str :=
  match searchTitle url ft with
  | some g =>
    let title := pyStrip g
    pyReplaceAll ft (g ++ ' ' :: url) ('[' :: title ++ ']' :: '(' :: url ++ [')'])
  | none =>
    pyReplaceAll ft url ('[' :: url ++ ']' :: '(' :: url ++ [')'])

/-- `format_sources_as_hyperlinks` (lines 57-84): strip HTML tags, find all
URL matches in the cleaned text, then run the replacement loop over them. -/
def format_sources_as_hyperlinks (sources_text : Str) : Str :=
  (findUrls (cleanHtml sources_text)).foldl formatStep (cleanHtml sources_text)

theorem cleanHtmlF_of_no_lt (fuel : Nat) (s : Str)
    (h : s.all (· != '<') = true) : cleanHtmlF fuel s = s := by
  induction fuel generalizing s with
  | zero => rfl
  | succ fuel ih =>
    cases s with
    | nil => rfl
    | cons c rest =>
      rw [List.all_cons, Bool.and_eq_true] at h
      have hc : ¬ c = '<' := by
        intro hcc
        rw [hcc] at h
        simp at h
      unfold cleanHtmlF
      rw [if_neg hc, ih rest h.2]

theorem cleanHtml_of_no_lt (s : Str) (h : s.all (· != '<') = true) :
    cleanHtml s = s :=
  cleanHtmlF_of_no_lt _ s h

/-- The claim's smallest refuting input for idempotence, found by search:
one pass turns the tail `"T https://a"` into the hyperlink
`"[T](https://a)"`, which merges with the preceding bare `"www."` text into
the new URL token `"www.[T](https://a)"`; the second pass, finding no title
before it (it is preceded by `'!'`), wraps that token again. -/
def c2Input : Str := "Thttps://a !www.T https://a".data

/-- C2 counterexample: `format_sources_as_hyperlinks` is not idempotent —
on the concrete input `"Thttps://a !www.T https://a"` the first application
gives `"Thttps://a !www.[T](https://a)"` and a second application rewrites
that result again, so applying the function twice differs from applying it
once. -/
theorem C2_counterexample :
    format_sources_as_hyperlinks c2Input =
      "Thttps://a !www.[T](https://a)".data ∧
    format_sources_as_hyperlinks (format_sources_as_hyperlinks c2Input) ≠
      format_sources_as_hyperlinks c2Input := by
  constructor
  · decide
  · decide

/-- C2 amended: the function is not idempotent in general; it is idempotent
(indeed the identity) on every input that contains no `'<'` character and no
match of the URL pattern. -/
theorem C2_amended (s : Str) (hlt : s.all (· != '<') = true)
    (hurl : findUrls s = []) :
    format_sources_as_hyperlinks s = s ∧
    format_sources_as_hyperlinks (format_sources_as_hyperlinks s) =
      format_sources_as_hyperlinks s := by
  have hid : format_sources_as_hyperlinks s = s := by
    unfold format_sources_as_hyperlinks
    rw [cleanHtml_of_no_lt s hlt, hurl]
    rfl
  exact ⟨hid, by rw [hid]; exact hid⟩

/-- Witness for `C2_amended` on a URL-free, tag-free input. -/
theorem C2_amended_witness :
    format_sources_as_hyperlinks "no links here.".data = "no links here.".data ∧
    format_sources_as_hyperlinks
        (format_sources_as_hyperlinks "no links here.".data) =
      format_sources_as_hyperlinks "no links here.".data :=
  C2_amended "no links here.".data (by decide) (by decide)

/-- C8 counterexample: text outside any URL span is altered — the function
deletes HTML tags first, so `"<b>hi</b>"`, which contains no URL at all,
comes back as `"hi"` instead of unchanged. -/
theorem C8_counterexample :
    format_sources_as_hyperlinks "<b>hi</b>".data ≠ "<b>hi</b>".data ∧
    format_sources_as_hyperlinks "<b>hi</b>".data = "hi".data := by
  constructor
  · decide
  · decide

/-- C8 amended: the function first deletes HTML tag spans (`<[^>]+>`); apart
from that cleaning pass, an input whose cleaned text has no URL-pattern
match is returned exactly as cleaned — in particular, tag-free input with no
URL match is returned verbatim. -/
theorem C8_amended (s : Str) (hurl : findUrls (cleanHtml s) = []) :
    format_sources_as_hyperlinks s = cleanHtml s ∧
    (s.all (· != '<') = true → format_sources_as_hyperlinks s = s) := by
  have heq : format_sources_as_hyperlinks s = cleanHtml s := by
    unfold format_sources_as_hyperlinks
    rw [hurl]
    rfl
  refine ⟨heq, fun hlt => ?_⟩
  rw [heq, cleanHtml_of_no_lt s hlt]

/-- Witness for `C8_amended` on an input with a tag and no URL. -/
theorem C8_amended_witness :
    format_sources_as_hyperlinks "<i>x</i> done.".data =
        cleanHtml "<i>x</i> done.".data ∧
    format_sources_as_hyperlinks "<i>x</i> done.".data = "x done.".data := by
  have h := C8_amended "<i>x</i> done.".data (by decide)
  exact ⟨h.1, by rw [h.1]; decide⟩

/-- What the per-line JSON step of the loop body (lines 182-213) does with
one decoded data payload: `fail` is `json.JSONDecodeError` (caught by the
inner `except`, line 212); `badShape` is a chunk whose dictionary accesses
raise (`KeyError` etc.), uncaught locally and hence handled by the outer
`except` of line 224; `chunk fin c` is a well-shaped payload with
`choices[0].finish_reason` (None encoded as `none`) and
`choices[0].delta.get('content', '')`. -/
inductive JsonOutcome where
  | fail
  | badShape (emsg : Str)
  | chunk (finish : Option Str) (content : Str)
deriving DecidableEq

/-- The `'data: '` line tag tested on line 181. -/
def dataTag : Str := "data: ".data

/-- The `'[DONE]'` sentinel of line 184. -/
def doneTok : Str := "[DONE]".data

/-- The `"No sources provided"` placeholder of line 216. -/
def noSources : Str := "No sources provided".data

/-- The error message of the outer `except` (line 227), with the exception
text abstracted as a parameter. -/
def pplxErrMsg (e : Str) : Str := "Error communicating with PPLX: ".data ++ e

/-- The terminal `"complete"` item built after the loop (lines 215-222):
stripped accumulated answer, and the sources text formatted as hyperlinks,
or the placeholder when the stripped sources text is empty. -/
def finishItem (st : SplitState) : Item :=
  Item.complete (pyStrip st.acc)
    (if pyStrip st.src = [] then noSources
     else format_sources_as_hyperlinks (pyStrip st.src))

/-- The `for line in response.iter_lines()` loop of `stream_pplx_response`
(lines 178-222), with `json.loads` and the chunk-dictionary accesses
abstracted into the `decode` oracle: skip empty and non-`data: ` lines; stop
at the `[DONE]` sentinel or a non-null `finish_reason`; skip lines whose
JSON decoding fails; yield a `"content"` item for each nonempty content
fragment; on an uncaught exception yield one `"error"` item; at stream end
yield the `"complete"` item. -/
def streamLoop (decode : Str → JsonOutcome) : List Str → SplitState → List Item
  | [], st => [finishItem st]
  | l :: ls, st =>
    if l = [] then streamLoop decode ls st
    else if startsWith l dataTag then
      if pyStrip (l.drop 6) = doneTok then [finishItem st]
      else
        match decode (l.drop 6) with
        | .fail => streamLoop decode ls st
        | .badShape e => [Item.error (pplxErrMsg e)]
        | .chunk (some _) _ => [finishItem st]
        | .chunk none c =>
          if c = [] then streamLoop decode ls st
          else
            Item.content c (sectionStep st c).acc ::
              streamLoop decode ls (sectionStep st c)
    else streamLoop decode ls st

/-- `stream_pplx_response` (lines 152-228) as a whole: a failed request
(`requests.post` / `raise_for_status`, lines 166-173) yields a single error
item via the outer `except`; otherwise the line loop runs from the empty
initial state. -/
def stream_pplx_response (net : Except Str (List Str))
    (decode : Str → JsonOutcome) : List Item :=
  match net with
  | .error e => [Item.error (pplxErrMsg e)]
  | .ok lines => streamLoop decode lines ⟨[], [], false⟩


theorem streamLoop_cons (decode : Str → JsonOutcome) (l : Str) (ls : List Str)
    (st : SplitState) :
    streamLoop decode (l :: ls) st =
      (if l = [] then streamLoop decode ls st
       else if startsWith l dataTag then
         if pyStrip (l.drop 6) = doneTok then [finishItem st]
         else
           match decode (l.drop 6) with
           | .fail => streamLoop decode ls st
           | .badShape e => [Item.error (pplxErrMsg e)]
           | .chunk (some _) _ => [finishItem st]
           | .chunk none c =>
             if c = [] then streamLoop decode ls st
             else
               Item.content c (sectionStep st c).acc ::
                 streamLoop decode ls (sectionStep st c)
       else streamLoop decode ls st) := rfl

/-- C7: the chunk decoder loop (a) skips empty and non-`data: ` lines
without changing anything, (b) stops immediately at the `[DONE]` sentinel,
ignoring all remaining lines, (c) skips a line whose JSON decoding fails and
continues with the remaining lines, and (d) stops immediately when a decoded
chunk reports a non-null `finish_reason`. -/
theorem C7_decoder (decode : Str → JsonOutcome) (l : Str) (ls : List Str)
    (st : SplitState) :
    ((l = [] ∨ startsWith l dataTag = false) →
      streamLoop decode (l :: ls) st = streamLoop decode ls st) ∧
    (startsWith l dataTag = true → pyStrip (l.drop 6) = doneTok →
      streamLoop decode (l :: ls) st = [finishItem st]) ∧
    (startsWith l dataTag = true → pyStrip (l.drop 6) ≠ doneTok →
      decode (l.drop 6) = .fail →
      streamLoop decode (l :: ls) st = streamLoop decode ls st) ∧
    (∀ r c, startsWith l dataTag = true → pyStrip (l.drop 6) ≠ doneTok →
      decode (l.drop 6) = .chunk (some r) c →
      streamLoop decode (l :: ls) st = [finishItem st]) := by
  refine ⟨?_, ?_, ?_, ?_⟩
  · rintro (rfl | hnd)
    · simp [streamLoop_cons]
    · rw [streamLoop_cons, hnd]
      simp
  · intro hd hdone
    have hl : ¬ l = [] := fun h => by rw [h] at hd; exact absurd hd (by decide)
    rw [streamLoop_cons, if_neg hl, hd, if_pos rfl, if_pos hdone]
  · intro hd hdone hfail
    have hl : ¬ l = [] := fun h => by rw [h] at hd; exact absurd hd (by decide)
    rw [streamLoop_cons, if_neg hl, hd, if_pos rfl, if_neg hdone, hfail]
  · intro r c hd hdone hfin
    have hl : ¬ l = [] := fun h => by rw [h] at hd; exact absurd hd (by decide)
    rw [streamLoop_cons, if_neg hl, hd, if_pos rfl, if_neg hdone, hfin]

/-- A concrete decode oracle for the `C7_decoder` witness: `"X"` is a
malformed payload, `"F"` reports a finish reason, anything else is a content
chunk carrying the payload text. -/
def decodeStub : Str → JsonOutcome := fun js =>
  if js = "X".data then .fail
  else if js = "F".data then .chunk (some "stop".data) []
  else .chunk none js

/-- Witness for `C7_decoder`: each of the four behaviours at concrete lines. -/
theorem C7_decoder_witness :
    streamLoop decodeStub ["keepalive".data, "data: ok".data] ⟨[], [], false⟩ =
      streamLoop decodeStub ["data: ok".data] ⟨[], [], false⟩ ∧
    streamLoop decodeStub ["data: [DONE]".data, "data: more".data]
        ⟨[], [], false⟩ = [finishItem ⟨[], [], false⟩] ∧
    streamLoop decodeStub ["data: X".data, "data: ok".data] ⟨[], [], false⟩ =
      streamLoop decodeStub ["data: ok".data] ⟨[], [], false⟩ ∧
    streamLoop decodeStub ["data: F".data, "data: more".data] ⟨[], [], false⟩ =
      [finishItem ⟨[], [], false⟩] :=
  ⟨(C7_decoder decodeStub "keepalive".data ["data: ok".data]
      ⟨[], [], false⟩).1 (Or.inr (by decide)),
   (C7_decoder decodeStub "data: [DONE]".data ["data: more".data]
      ⟨[], [], false⟩).2.1 (by decide) (by decide),
   (C7_decoder decodeStub "data: X".data ["data: ok".data]
      ⟨[], [], false⟩).2.2.1 (by decide) (by decide) (by decide),
   (C7_decoder decodeStub "data: F".data ["data: more".data]
      ⟨[], [], false⟩).2.2.2 "stop".data [] (by decide) (by decide) (by decide)⟩

/-- `true` exactly on `"content"` items. -/
def isContentItem : Item → Bool
  | .content _ _ => true
  | _ => false

theorem streamLoop_shape (decode : Str → JsonOutcome) (ls : List Str)
    (st : SplitState) :
    ∃ cs t, streamLoop decode ls st = cs ++ [t] ∧
      cs.all isContentItem = true ∧
      ((∃ st', t = finishItem st') ∨ ∃ m, t = Item.error m) := by
  induction ls generalizing st with
  | nil => exact ⟨[], finishItem st, rfl, rfl, Or.inl ⟨st, rfl⟩⟩
  | cons l ls ih =>
    by_cases hl : l = []
    · rcases ih st with ⟨cs, t, heq, hall, hterm⟩
      exact ⟨cs, t, by rw [streamLoop_cons, if_pos hl, heq], hall, hterm⟩
    · by_cases hd : startsWith l dataTag = true
      · by_cases hdone : pyStrip (l.drop 6) = doneTok
        · exact ⟨[], finishItem st,
            by rw [streamLoop_cons, if_neg hl, hd, if_pos rfl,
              if_pos hdone]; rfl,
            rfl, Or.inl ⟨st, rfl⟩⟩
        · rcases hdec : decode (l.drop 6) with _ | e | ⟨fin, c⟩
          · rcases ih st with ⟨cs, t, heq, hall, hterm⟩
            exact ⟨cs, t,
              by rw [streamLoop_cons, if_neg hl, hd, if_pos rfl,
                if_neg hdone, hdec, heq],
              hall, hterm⟩
          · exact ⟨[], Item.error (pplxErrMsg e),
              by rw [streamLoop_cons, if_neg hl, hd, if_pos rfl,
                if_neg hdone, hdec]; rfl,
              rfl, Or.inr ⟨_, rfl⟩⟩
          · cases fin with
            | some r =>
              exact ⟨[], finishItem st,
                by rw [streamLoop_cons, if_neg hl, hd, if_pos rfl,
                  if_neg hdone, hdec]; rfl,
                rfl, Or.inl ⟨st, rfl⟩⟩
            | none =>
              by_cases hc : c = []
              · rcases ih st with ⟨cs, t, heq, hall, hterm⟩
                exact ⟨cs, t,
                  by
                    rw [streamLoop_cons, if_neg hl, hd, if_pos rfl,
                      if_neg hdone, hdec]
                    show (if c = [] then streamLoop decode ls st
                      else Item.content c (sectionStep st c).acc ::
                        streamLoop decode ls (sectionStep st c)) = cs ++ [t]
                    rw [if_pos hc, heq],
                  hall, hterm⟩
              · rcases ih (sectionStep st c) with ⟨cs, t, heq, hall, hterm⟩
                refine ⟨Item.content c (sectionStep st c).acc :: cs, t, ?_,
                  ?_, hterm⟩
                · rw [streamLoop_cons, if_neg hl, hd, if_pos rfl,
                    if_neg hdone, hdec]
                  show (if c = [] then streamLoop decode ls st
                    else Item.content c (sectionStep st c).acc ::
                      streamLoop decode ls (sectionStep st c)) =
                    Item.content c (sectionStep st c).acc :: cs ++ [t]
                  rw [if_neg hc, heq]
                  rfl
                · rw [List.all_cons, hall]
                  rfl
      · rcases ih st with ⟨cs, t, heq, hall, hterm⟩
        rw [Bool.not_eq_true] at hd
        exact ⟨cs, t,
          by rw [streamLoop_cons, if_neg hl, hd, heq]; simp, hall, hterm⟩

/-- C10: for every network outcome and decode oracle, the generator yields a
list of items consisting of zero or more `"content"` items followed by
exactly one terminal item, which is either the `"complete"` item built from
some final state (stripped answer, formatted sources or the placeholder) or
one `"error"` item — never both, never zero. -/
theorem C10_stream (net : Except Str (List Str))
    (decode : Str → JsonOutcome) :
    ∃ cs t, stream_pplx_response net decode = cs ++ [t] ∧
      cs.all isContentItem = true ∧
      ((∃ st', t = finishItem st') ∨ ∃ m, t = Item.error m) := by
  cases net with
  | error e =>
    exact ⟨[], Item.error (pplxErrMsg e), rfl, rfl, Or.inr ⟨_, rfl⟩⟩
  | ok lines => exact streamLoop_shape decode lines ⟨[], [], false⟩
